import Mathlib

/-!
# viking `src/download.c`: content sniffers, lock registry, download queue and `download()`

A shallow embedding of `src/download.c` and the properties of it that the
specification states.

Modelling conventions

* A byte is a natural number (its code); file contents and buffers are lists of
  bytes.  `bytes "<html"` is the byte list of an ASCII literal.
* A `char *` naming a file is a pair of its address and the string stored there
  (`CharPtr`): `g_list_find_custom (.., g_strcmp0)` compares the strings,
  `g_list_remove` compares the addresses.
* `time_t` values are integers; `gint` is a 32-bit two's-complement integer.
* The filesystem is a finite map from path strings to regular files; GLib and
  libc calls on it (`g_rename`, `g_remove`, `g_utime`, ...) are the idealised
  ones that succeed whenever their target exists.  The one call whose failure
  the source handles, `g_fopen`, can fail.
-/

namespace Viking

/-! ## Bytes and the libc string helpers used by the sniffers -/

abbrev Byte := Nat
abbrev Bytes := List Byte

/-- The bytes of an ASCII string literal. -/
def bytes (s : String) : Bytes := s.toList.map Char.toNat

/-- The terminating byte of a C string. -/
def NUL : Byte := 0

/-- C-locale `isspace`: space, `\t`, `\n`, `\v`, `\f`, `\r`. -/
def isspace (c : Byte) : Bool := c == 32 || (9 ≤ c && c ≤ 13)

/-- C-locale `tolower`. -/
def tolower (c : Byte) : Byte := if 65 ≤ c ∧ c ≤ 90 then c + 32 else c

/-- The C string stored in a buffer: the bytes before the first NUL. -/
def cstr (s : Bytes) : Bytes := s.takeWhile (fun c => c != NUL)

/-- `strlen`. -/
def strlen (s : Bytes) : Nat := (cstr s).length

/-- `strncasecmp s1 s2 n`: compare at most `n` bytes, ignoring case, stopping at
a NUL.  Reading at the end of a list reads the NUL that terminates it. -/
def strncasecmp : Bytes → Bytes → Nat → Int
  | _, _, 0 => 0
  | s1, s2, n + 1 =>
    let c1 := tolower (s1.headD NUL)
    let c2 := tolower (s2.headD NUL)
    if c1 ≠ c2 then (c1 : Int) - (c2 : Int)
    else if c1 = NUL then 0
    else strncasecmp s1.tail s2.tail n

/-- A `FILE *` stream: the content of the file and the read/write position. -/
structure FILE where
  content : Bytes
  pos : Nat
deriving DecidableEq, Repr

/-- `fread (buf, 1, n, f)`: the bytes read and the advanced stream. -/
def fread (f : FILE) (n : Nat) : Bytes × FILE :=
  let data := (f.content.drop f.pos).take n
  (data, { f with pos := f.pos + data.length })

/-- The whitespace-skipping loop of `check_file_first_line` (line 61):
`for (bp = buf; bp < buf + 32 && nr > bp - buf; bp++) if (!isspace(*bp)) break;`
with `bp` as an index into `buf`; the first argument bounds the iterations. -/
def skip_space (buf : Bytes) (nr : Nat) : Nat → Nat → Nat
  | 0, bp => bp
  | k + 1, bp =>
    if bp < 32 ∧ nr > bp then
      if !isspace (buf.getD bp NUL) then bp else skip_space buf nr k (bp + 1)
    else bp

/-- `check_file_first_line` (lines 48-72).  `patterns` is the NULL-terminated
array of marker strings.  Returns the result and the stream afterwards. -/
def check_file_first_line (f : FILE) (patterns : List Bytes) : Bool × FILE :=
  let pos := f.pos                                    -- fgetpos
  let f1 := { f with pos := 0 }                       -- rewind
  let (data, f2) := fread f1 32                       -- fread (buf, 1, sizeof(buf) - 1, f)
  let nr := data.length
  let buf := data ++ List.replicate (33 - nr) NUL     -- memset (buf, 0, 33)
  let f3 := { f2 with pos := pos }                    -- fsetpos
  let bp := skip_space buf nr 32 0
  if bp ≥ 32 ∨ bp ≥ nr then (false, f3)
  else (patterns.any (fun s => strncasecmp s (buf.drop bp) (strlen s) == 0), f3)

/-- `a_check_html_file` (lines 74-85). -/
def a_check_html_file (f : FILE) : Bool × FILE :=
  check_file_first_line f
    [bytes "<html", bytes "<!DOCTYPE html", bytes "<head", bytes "<title"]

/-- `a_check_map_file` (lines 87-91). -/
def a_check_map_file (f : FILE) : Bool × FILE :=
  let r := a_check_html_file f
  (!r.1, r.2)

/-- `a_check_kml_file` (lines 93-101). -/
def a_check_kml_file (f : FILE) : Bool × FILE :=
  check_file_first_line f [bytes "<?xml"]

/-- The prefix the sniffer looks at: the first 32 bytes of the file (fewer if the
file is shorter) with leading whitespace skipped. -/
def sniffed (f : FILE) : Bytes := (f.content.take 32).dropWhile isspace

/-- Marker `p` begins `s`, compared case-insensitively. -/
def begins_with (s p : Bytes) : Prop := (cstr p).map tolower <+: s.map tolower

/-! ## The lock registry (`file_list`, lines 103, 195-214) -/

/-- A `char *`: its address and the string it points to. -/
structure CharPtr where
  addr : Nat
  str : String
deriving DecidableEq, Repr

/-- `lock_file` (lines 195-207): the result and the new `file_list`. -/
def lock_file (file_list : List CharPtr) (fn : CharPtr) : Bool × List CharPtr :=
  if (file_list.find? (fun e => e.str == fn.str)).isNone then
    (true, file_list ++ [fn])
  else
    (false, file_list)

/-- `unlock_file` (lines 209-214): `g_list_remove` drops the first element whose
data pointer is `fn`. -/
def unlock_file (file_list : List CharPtr) (fn : CharPtr) : List CharPtr :=
  file_list.eraseP (fun e => e.addr == fn.addr)

/-- One call on the registry. -/
inductive RegistryCall where
  | lock (fn : CharPtr)
  | unlock (fn : CharPtr)

/-- The registry after one call. -/
def RegistryCall.run (file_list : List CharPtr) : RegistryCall → List CharPtr
  | .lock fn => (lock_file file_list fn).2
  | .unlock fn => unlock_file file_list fn

/-- The registry after a sequence of calls, starting from `file_list`. -/
def run_calls (file_list : List CharPtr) (calls : List RegistryCall) : List CharPtr :=
  calls.foldl RegistryCall.run file_list

/-! ## The download queue (lines 120-174) -/

/-- Wrap an integer to the range of `gint` (32-bit two's complement). -/
def wrap_gint (x : Int) : Int := (x + 2147483648) % 4294967296 - 2147483648

/-- Whether an integer is a `gint` value. -/
def is_gint (x : Int) : Prop := -2147483648 ≤ x ∧ x ≤ 2147483647

instance (x : Int) : Decidable (is_gint x) := by
  unfold is_gint
  infer_instance

/-- `struct download_info` (lines 120-128), without the callback. -/
structure download_info where
  hostname : String
  uri : String
  fn : String
  prio : Int
deriving DecidableEq, Repr

/-- `compare_pool` (lines 149-155): `_b->prio - _a->prio` in `gint` arithmetic. -/
def compare_pool (a b : download_info) : Int := wrap_gint (b.prio - a.prio)

/-! ## The filesystem -/

/-- A regular file: its bytes and its modification time (`st_mtime`). -/
structure FileData where
  content : Bytes
  mtime : Int
deriving DecidableEq, Repr

/-- The filesystem: regular files by path, and the directories that exist (a
directory stands for itself and its ancestors).  A destination path is taken to
name a regular file or nothing. -/
structure FS where
  files : String → Option FileData
  dirs : String → Bool

/-- `g_file_test (fn, G_FILE_TEST_EXISTS)`. -/
def g_file_test_exists (fs : FS) (fn : String) : Bool := (fs.files fn).isSome

/-- `g_stat (fn, &buf); buf.st_mtime`; `download()` calls it on an existing file only. -/
def g_stat_mtime (fs : FS) (fn : String) : Int :=
  match fs.files fn with
  | some d => d.mtime
  | none => 0

/-- `g_file_get_contents (fn, &contents, &length, NULL)`: on failure `contents` is
NULL and `length` is 0. -/
def g_file_get_contents (fs : FS) (fn : String) : Option Bytes × Nat :=
  match fs.files fn with
  | some d => (some d.content, d.content.length)
  | none => (none, 0)

/-- `g_path_get_dirname`: the part before the last run of separators, `.` for a
name without separator, `/` when nothing is left. -/
def g_path_get_dirname (file_name : String) : String :=
  let cs := file_name.toList
  if cs.contains '/' then
    let dir := ((cs.reverse.dropWhile (fun c => c != '/')).dropWhile (fun c => c == '/')).reverse
    if dir.isEmpty then "/" else String.mk dir
  else "."

/-- `g_mkdir_with_parents (dir, 0777)`. -/
def g_mkdir_with_parents (fs : FS) (dir : String) : FS :=
  { fs with dirs := fun d => d == dir || fs.dirs d }

/-- Store `d` at path `fn`. -/
def FS.write (fs : FS) (fn : String) (d : Option FileData) : FS :=
  { fs with files := fun p => if p = fn then d else fs.files p }

/-- `g_remove (fn)`. -/
def g_remove (fs : FS) (fn : String) : FS := fs.write fn none

/-- `g_rename (old, new)`: fails, changing nothing, when `old` does not exist. -/
def g_rename (fs : FS) (old new : String) : FS :=
  match fs.files old with
  | some d => (fs.write new (some d)).write old none
  | none => fs

/-- `g_utime (fn, NULL)`: stamp the file with the current time `t`. -/
def g_utime (fs : FS) (fn : String) (t : Int) : FS :=
  match fs.files fn with
  | some d => fs.write fn (some { d with mtime := t })
  | none => fs

/-- `g_file_set_contents (fn, contents, -1, NULL)` at time `t`. -/
def g_file_set_contents (fs : FS) (fn : String) (contents : Bytes) (t : Int) : FS :=
  fs.write fn (some ⟨contents, t⟩)

/-! ## `download()` (lines 216-343) -/

/-- Modelled from the spec: `DownloadMapOptions`, declared in `download.h`; the
fields are the ones `download.c` reads (`FetchOptions` of the specification). -/
structure DownloadMapOptions where
  referer : Option String
  check_file_server_time : Bool
  use_etag : Bool
  check_file : Option (FILE → Bool)

/-- Modelled from the spec: `DownloadFileOptions`, declared in `curl_download.h`:
the conditional-request parameters, initialised by `{0, NULL, NULL}`. -/
structure DownloadFileOptions where
  time_condition : Int
  etag : Option Bytes
  new_etag : Option Bytes
deriving DecidableEq, Repr

/-- Modelled from the spec: what `curl_download_get_url` (the transport backend,
`curl_download.h`) reports: `DOWNLOAD_NO_ERROR` (new content written),
`DOWNLOAD_NO_NEWER_FILE` (not modified), or anything else (failed). -/
inductive CurlRet where
  | DOWNLOAD_NO_ERROR
  | DOWNLOAD_NO_NEWER_FILE
  | DOWNLOAD_ERROR
deriving DecidableEq, Repr

/-- One call of `curl_download_get_url`: the arguments `download()` passes. -/
structure CurlCall where
  hostname : String
  uri : String
  ftp : Bool
  file_options : DownloadFileOptions
deriving DecidableEq, Repr

/-- What one call of the backend does: its return value, the bytes it wrote to
the stream, and the `new_etag` it stored in `file_options`. -/
structure CurlReply where
  ret : CurlRet
  written : Bytes
  new_etag : Option Bytes
deriving DecidableEq, Repr

/-- What `download()` reads from its environment during one call. -/
structure Env where
  /-- The preference `download_tile_age` (a `guint`). -/
  tile_age : Nat
  /-- The value of `time(NULL)` at the freshness check. -/
  now : Int
  /-- The clock when the call writes files or calls `g_utime`. -/
  touch_time : Int
  /-- The address `g_strdup_printf` returns for `tmpfilename`. -/
  tmp_addr : Nat
  /-- Whether `g_fopen (tmpfilename, "w+b")` succeeds. -/
  fopen_ok : Bool
  /-- The transport backend. -/
  curl : CurlCall → CurlReply

/-- The state `download()` works on: the filesystem, the lock registry
`file_list`, and the log of the backend calls made so far. -/
structure State where
  fs : FS
  file_list : List CharPtr
  calls : List CurlCall

/-- How a call of `download()` ends: it returns `code` in state `st`, or it
dereferences the NULL `options` pointer. -/
inductive Result where
  | ret (code : Int) (st : State)
  | null_deref

/-- The code returned, if the call returns. -/
def Result.code : Result → Option Int
  | .ret c _ => some c
  | .null_deref => none

/-- The state after the call, if it returns. -/
def Result.state : Result → Option State
  | .ret _ st => some st
  | .null_deref => none

/-- Lines 224-266 of `download()`: `none` for `return -3`, otherwise the
conditional parameters `file_options` and the filesystem after the
directories were made. -/
def download_check_file (env : Env) (fn : String) (options : Option DownloadMapOptions)
    (fs : FS) : Option (DownloadFileOptions × FS) :=
  let file_options : DownloadFileOptions := ⟨0, none, none⟩
  if g_file_test_exists fs fn = true then
    match options with
    | none => none
    | some o =>
      if !o.check_file_server_time && !o.use_etag then none
      else
        let tile_age : Int := env.tile_age
        let file_time := g_stat_mtime fs fn
        if env.now - file_time < tile_age then none
        else
          let file_options :=
            if o.check_file_server_time then { file_options with time_condition := file_time }
            else file_options
          let file_options :=
            if o.use_etag then
              let (contents, etag_length) := g_file_get_contents fs (fn ++ ".etag")
              if etag_length > 100 then { file_options with etag := none }
              else { file_options with etag := contents }
            else file_options
          some (file_options, fs)
  else
    some (file_options, g_mkdir_with_parents fs (g_path_get_dirname fn))

/-- Lines 315-334 of `download()`, the commit: store the entity tag the server
returned, then refresh the time stamp of the destination (not modified) or move the
temporary file onto it (new content). -/
def download_commit (env : Env) (fn : String) (o : DownloadMapOptions) (reply : CurlReply)
    (tmpfilename : CharPtr) (fs : FS) : FS :=
  let fs :=
    if o.use_etag then
      match reply.new_etag with
      | some new_etag => g_file_set_contents fs (fn ++ ".etag") new_etag env.touch_time
      | none => fs
    else fs
  if reply.ret = .DOWNLOAD_NO_NEWER_FILE then
    g_utime (g_remove fs tmpfilename.str) fn env.touch_time
  else
    g_rename fs tmpfilename.str fn

/-- Lines 286-342 of `download()`: the backend call on the opened stream, then the
clean-up or the commit.  `st` is the state after `lock_file` and `g_fopen`. -/
def download_transfer (env : Env) (hostname uri fn : String)
    (options : Option DownloadMapOptions) (ftp : Bool) (file_options : DownloadFileOptions)
    (tmpfilename : CharPtr) (st : State) : Result :=
  let call : CurlCall := ⟨hostname, uri, ftp, file_options⟩
  let reply := env.curl call                      -- curl_download_get_url
  let calls := st.calls ++ [call]
  let fs := st.fs.write tmpfilename.str (some ⟨reply.written, env.touch_time⟩)
  let f : FILE := ⟨reply.written, reply.written.length⟩
  let failure : Bool :=
    reply.ret != .DOWNLOAD_NO_ERROR && reply.ret != .DOWNLOAD_NO_NEWER_FILE
  let failure : Bool :=
    if !failure then
      match options with
      | none => failure
      | some o =>
        match o.check_file with
        | none => failure
        | some check => if !check f then true else failure
    else failure
  if failure then
    let fs := g_remove fs tmpfilename.str
    let file_list := unlock_file st.file_list tmpfilename
    match options with
    | none => .null_deref                                     -- line 308
    | some _ => .ret (-1) ⟨fs, file_list, calls⟩
  else
    match options with
    | none => .null_deref                                     -- line 315
    | some o =>
      let fs := download_commit env fn o reply tmpfilename fs
      let file_list := unlock_file st.file_list tmpfilename
      .ret 0 ⟨fs, file_list, calls⟩

/-- `download` (lines 216-343). -/
def download (env : Env) (hostname uri fn : String) (options : Option DownloadMapOptions)
    (ftp : Bool) (st : State) : Result :=
  match download_check_file env fn options st.fs with
  | none => .ret (-3) st
  | some (file_options, fs) =>
    let tmpfilename : CharPtr := ⟨env.tmp_addr, fn ++ ".tmp"⟩
    match lock_file st.file_list tmpfilename with
    | (false, file_list) =>
      match options with
      | none => .null_deref                                   -- line 273
      | some _ => .ret (-4) ⟨fs, file_list, st.calls⟩
    | (true, file_list) =>
      if env.fopen_ok = false then
        match options with
        | none => .null_deref                                 -- line 281
        | some _ => .ret (-4) ⟨fs, file_list, st.calls⟩
      else
        -- "w+b": the temporary file is created or truncated
        let fs := fs.write tmpfilename.str (some ⟨[], env.touch_time⟩)
        download_transfer env hostname uri fn options ftp file_options tmpfilename
          ⟨fs, file_list, st.calls⟩

/-! ## Notions used in the statements -/

/-- The filesystem with no file and no directory. -/
def no_files : FS := ⟨fun _ => none, fun _ => false⟩

/-- The bytes of the file at `fn`, if it exists. -/
def content_of (fs : FS) (fn : String) : Option Bytes := (fs.files fn).map FileData.content

/-- Nobody holds the lock on the temporary file of destination `fn`. -/
def lock_free (file_list : List CharPtr) (fn : String) : Prop :=
  ∀ e ∈ file_list, e.str ≠ fn ++ ".tmp"

/-- The options ask for no freshness check (line 227): they are NULL, or both
`check_file_server_time` and `use_etag` are false. -/
def no_check (options : Option DownloadMapOptions) : Bool :=
  match options with
  | none => true
  | some o => !o.check_file_server_time && !o.use_etag

/-- The options carry a validator and it rejects the stream the backend wrote. -/
def validator_rejects (o : DownloadMapOptions) (reply : CurlReply) : Bool :=
  match o.check_file with
  | some check => !check ⟨reply.written, reply.written.length⟩
  | none => false

/-- The call ends in the failure branch (line 302): the backend reported neither new
content nor not-modified, or the validator rejected what was written. -/
def failed (o : DownloadMapOptions) (reply : CurlReply) : Bool :=
  reply.ret == .DOWNLOAD_ERROR || validator_rejects o reply

/-- The file with its modification time set to `t`. -/
def touched (t : Int) (d : FileData) : FileData := { d with mtime := t }

/-! ## Concrete inputs -/

/-- The filesystem whose only file is the destination `tile`. -/
def one_tile (content : Bytes) (mtime : Int) : FS :=
  ⟨fun p => if p = "tile" then some ⟨content, mtime⟩ else none, fun _ => false⟩

/-- The filesystem with the destination `tile` and its sidecar `tile.etag`. -/
def tile_and_etag (content : Bytes) (mtime : Int) (etag : Bytes) : FS :=
  ⟨fun p => if p = "tile" then some ⟨content, mtime⟩
    else if p = "tile.etag" then some ⟨etag, mtime⟩ else none, fun _ => false⟩

/-- Options that ask for the server-time check only. -/
def time_options : DownloadMapOptions := ⟨none, true, false, none⟩

/-- Options that ask for the entity-tag check only. -/
def etag_options : DownloadMapOptions := ⟨none, false, true, none⟩

/-- Options with the server-time check and `a_check_kml_file` as validator. -/
def kml_options : DownloadMapOptions :=
  ⟨none, true, false, some (fun f => (a_check_kml_file f).1)⟩

/-- An environment in which the backend answers every call with `reply`. -/
def env_of (tile_age : Nat) (now : Int) (fopen_ok : Bool) (reply : CurlReply) : Env :=
  ⟨tile_age, now, now, 1, fopen_ok, fun _ => reply⟩

/-- The state a call leaves behind, `st` itself if the call does not return. -/
def state_after (r : Result) (st : State) : State :=
  match r with
  | .ret _ st' => st'
  | .null_deref => st

/-! # Theorems -/

/-! ## Content sniffers -/

theorem tolower_eq_NUL (c : Byte) : tolower c = NUL ↔ c = NUL := by
  show (if 65 ≤ c ∧ c ≤ 90 then c + 32 else c) = 0 ↔ c = 0
  split
  · constructor
    · intro h; exact absurd h (Nat.succ_ne_zero _)
    · intro h; subst h; rename_i h2; exact absurd h2.1 (by decide)
  · exact Iff.rfl

theorem tolower_sub_ne (c d : Byte) (h : tolower c ≠ tolower d) :
    ((tolower c : Nat) : Int) - ((tolower d : Nat) : Int) ≠ 0 := by
  intro h2
  exact h (Int.ofNat_inj.1 (sub_eq_zero.1 h2))

theorem strncasecmp_pad (n : Nat) : ∀ (s r : Bytes) (k : Nat),
    strncasecmp s (r ++ List.replicate k NUL) n = strncasecmp s r n := by
  induction n with
  | zero => intro s r k; simp [strncasecmp]
  | succ n ih =>
    intro s r k
    cases r with
    | nil =>
      have h : (List.replicate k NUL).headD NUL = NUL := by cases k <;> rfl
      rw [List.nil_append, strncasecmp, strncasecmp, h]
      simp only [List.headD_nil]
      by_cases h1 : tolower (s.headD NUL) = tolower NUL
      · have h2 : tolower (s.headD NUL) = NUL := by rw [h1]; rfl
        have h3 : tolower NUL = NUL := rfl
        simp only [h1, h2, h3, ne_eq, not_true_eq_false, if_false, if_true]
      · simp only [ne_eq, h1, not_false_eq_true, if_true]
    | cons d r =>
      simp only [strncasecmp, List.cons_append, List.headD_cons, List.tail_cons, ih]

theorem strncasecmp_strlen (p : Bytes) : ∀ r : Bytes,
    strncasecmp p r (strlen p) = 0 ↔ (cstr p).map tolower <+: r.map tolower := by
  induction p with
  | nil => intro r; simp [strlen, cstr, strncasecmp]
  | cons c p ih =>
    intro r
    by_cases hc : c = NUL
    · simp [strlen, cstr, hc, strncasecmp]
    · have hlen : strlen (c :: p) = strlen p + 1 := by simp [strlen, cstr, hc]
      have hcs : cstr (c :: p) = c :: cstr p := by simp [cstr, hc]
      have hc1 : tolower c ≠ NUL := fun h => hc ((tolower_eq_NUL c).1 h)
      rw [hlen, hcs]
      cases r with
      | nil =>
        have h0 : tolower NUL = NUL := rfl
        have hne := tolower_sub_ne c NUL (by rw [h0]; exact hc1)
        simp only [strncasecmp, List.headD_cons, List.headD_nil, ne_eq, h0, hc1,
          not_false_eq_true, if_true, List.map_cons, List.map_nil]
        rw [h0] at hne
        simp [hne]
      | cons d r =>
        by_cases hd : tolower c = tolower d
        · simp only [strncasecmp, List.headD_cons, List.tail_cons, hd, ne_eq, not_true_eq_false,
            if_false, List.map_cons]
          have hd1 : tolower d ≠ NUL := hd ▸ hc1
          rw [if_neg hd1, ih r]
          constructor
          · intro h; exact (List.cons_prefix_cons).2 ⟨rfl, h⟩
          · intro h; exact ((List.cons_prefix_cons).1 h).2
        · have hne := tolower_sub_ne c d hd
          simp only [strncasecmp, List.headD_cons, ne_eq, hd, not_false_eq_true, if_true,
            List.map_cons, hne, false_iff]
          intro h
          exact hd ((List.cons_prefix_cons).1 h).1

theorem skip_space_eq (data pad : Bytes) (hnr : data.length ≤ 32) : ∀ (k bp : Nat),
    32 ≤ k + bp →
    skip_space (data ++ pad) data.length k bp
      = bp + ((data.drop bp).takeWhile isspace).length := by
  intro k
  induction k with
  | zero =>
    intro bp h
    have : data.drop bp = [] := List.drop_eq_nil_of_le (by omega)
    simp [skip_space, this]
  | succ k ih =>
    intro bp h
    by_cases hb : bp < 32 ∧ data.length > bp
    · have hget : (data ++ pad).getD bp NUL = data.get ⟨bp, hb.2⟩ := by
        simp [List.getD_eq_getElem?_getD, List.getElem?_append_left hb.2,
          List.getElem?_eq_getElem hb.2]
      have hdrop : data.drop bp = data.get ⟨bp, hb.2⟩ :: data.drop (bp + 1) := by
        simp
      rw [skip_space, if_pos hb, hget, hdrop]
      by_cases hs : isspace (data.get ⟨bp, hb.2⟩) = true
      · simp only [hs, Bool.not_true, Bool.false_eq_true, if_false, List.takeWhile_cons, if_true,
          List.length_cons]
        rw [ih (bp + 1) (by omega)]
        omega
      · have hs2 : isspace (data.get ⟨bp, hb.2⟩) = false := by simpa using hs
        simp only [hs2, Bool.not_false, if_true, List.takeWhile_cons, Bool.false_eq_true,
          if_false, List.length_nil, Nat.add_zero]
    · rw [skip_space, if_neg hb]
      have : data.drop bp = [] := List.drop_eq_nil_of_le (by omega)
      simp [this]

theorem drop_takeWhile_length (q : Byte → Bool) (l : Bytes) :
    l.drop (l.takeWhile q).length = l.dropWhile q := by
  have h := List.drop_left (List.takeWhile q l) (List.dropWhile q l)
  rwa [List.takeWhile_append_dropWhile] at h

theorem takeWhile_length_add (q : Byte → Bool) (l : Bytes) :
    (l.takeWhile q).length + (l.dropWhile q).length = l.length := by
  have h := congrArg List.length (List.takeWhile_append_dropWhile q l)
  rwa [List.length_append] at h

theorem check_file_first_line_fst (f : FILE) (patterns : List Bytes) :
    (check_file_first_line f patterns).1
      = (decide (sniffed f ≠ []) &&
          patterns.any (fun s => strncasecmp s (sniffed f) (strlen s) == 0)) := by
  have hlen : (f.content.take 32).length ≤ 32 := by simp
  have hbp := skip_space_eq (f.content.take 32)
    (List.replicate (33 - (f.content.take 32).length) NUL) hlen 32 0 (by omega)
  have hadd := takeWhile_length_add isspace (f.content.take 32)
  have hdrop := drop_takeWhile_length isspace (f.content.take 32)
  simp only [List.drop_zero, Nat.zero_add] at hbp
  simp only [check_file_first_line, fread, List.drop_zero, hbp, sniffed]
  by_cases hfull : (List.takeWhile isspace (f.content.take 32)).length ≥ 32 ∨
      (List.takeWhile isspace (f.content.take 32)).length ≥ (f.content.take 32).length
  · have hnil : List.dropWhile isspace (f.content.take 32) = [] := by
      apply List.eq_nil_of_length_eq_zero
      omega
    rw [if_pos hfull]
    simp [hnil]
  · have hne : List.dropWhile isspace (f.content.take 32) ≠ [] := by
      intro h
      rw [h] at hadd
      simp only [List.length_nil, Nat.add_zero] at hadd
      omega
    rw [if_neg hfull]
    have hle : (List.takeWhile isspace (f.content.take 32)).length
        ≤ (f.content.take 32).length := by omega
    simp only [List.drop_append_of_le_length hle, hdrop, strncasecmp_pad, hne, ne_eq,
      not_false_eq_true, decide_True, Bool.true_and]

theorem check_file_first_line_snd (f : FILE) (patterns : List Bytes) :
    (check_file_first_line f patterns).2 = f := by
  simp only [check_file_first_line, fread]
  split <;> rfl

theorem check_file_first_line_iff (f : FILE) (patterns : List Bytes) :
    (check_file_first_line f patterns).1 = true ↔
      sniffed f ≠ [] ∧ ∃ p ∈ patterns, begins_with (sniffed f) p := by
  rw [check_file_first_line_fst]
  simp only [Bool.and_eq_true, decide_eq_true_eq, List.any_eq_true, beq_iff_eq,
    strncasecmp_strlen, begins_with]

theorem begins_with_ne_nil (s p : Bytes) (hp : cstr p ≠ []) (h : begins_with s p) : s ≠ [] := by
  intro hs
  subst hs
  unfold begins_with at h
  simp only [List.map_nil, List.prefix_nil, List.map_eq_nil_iff] at h
  exact hp h

/-- C10: `check_file_first_line` is TRUE exactly when the first 32 bytes of the file
(fewer if it is shorter), after the leading whitespace, are not used up and begin with
one of the markers, compared case-insensitively; for markers that are not empty that
is: exactly when they begin with one of the markers.  It is FALSE for an empty file
and for a prefix that is all whitespace, and the stream is handed back with its read
position as it was.  Hence `a_check_html_file` is TRUE exactly for the four HTML
markers, `a_check_kml_file` exactly for `<?xml`, and `a_check_map_file` is the
negation of `a_check_html_file`. -/
theorem check_file_first_line_sniffs (f : FILE) (patterns : List Bytes) :
    ((check_file_first_line f patterns).1 = true ↔
        sniffed f ≠ [] ∧ ∃ p ∈ patterns, begins_with (sniffed f) p) ∧
    ((∀ p ∈ patterns, cstr p ≠ []) →
        ((check_file_first_line f patterns).1 = true ↔
          ∃ p ∈ patterns, begins_with (sniffed f) p)) ∧
    (f.content = [] → (check_file_first_line f patterns).1 = false) ∧
    ((∀ c ∈ f.content.take 32, isspace c = true) →
        (check_file_first_line f patterns).1 = false) ∧
    (check_file_first_line f patterns).2 = f ∧
    ((a_check_html_file f).1 = true ↔
        begins_with (sniffed f) (bytes "<html") ∨
        begins_with (sniffed f) (bytes "<!DOCTYPE html") ∨
        begins_with (sniffed f) (bytes "<head") ∨
        begins_with (sniffed f) (bytes "<title")) ∧
    ((a_check_kml_file f).1 = true ↔ begins_with (sniffed f) (bytes "<?xml")) ∧
    (a_check_map_file f).1 = (!(a_check_html_file f).1) ∧
    (a_check_html_file f).2 = f ∧ (a_check_kml_file f).2 = f ∧ (a_check_map_file f).2 = f := by
  have hnonempty : ∀ ps : List Bytes, (∀ p ∈ ps, cstr p ≠ []) →
      ((check_file_first_line f ps).1 = true ↔ ∃ p ∈ ps, begins_with (sniffed f) p) := by
    intro ps hps
    rw [check_file_first_line_iff]
    constructor
    · exact fun h => h.2
    · rintro ⟨p, hp, hb⟩
      exact ⟨begins_with_ne_nil _ p (hps p hp) hb, p, hp, hb⟩
  have hfalse : sniffed f = [] → (check_file_first_line f patterns).1 = false := by
    intro h
    rw [check_file_first_line_fst, h]
    simp
  refine ⟨check_file_first_line_iff f patterns, hnonempty patterns, ?_, ?_,
    check_file_first_line_snd f patterns, ?_, ?_, rfl, check_file_first_line_snd f _,
    check_file_first_line_snd f _, check_file_first_line_snd f _⟩
  · intro h
    apply hfalse
    simp [sniffed, h]
  · intro h
    apply hfalse
    simp only [sniffed, List.dropWhile_eq_nil_iff]
    exact h
  · unfold a_check_html_file
    rw [hnonempty _ (by decide)]
    simp
  · unfold a_check_kml_file
    rw [hnonempty _ (by decide)]
    simp

/-! ## The lock registry -/

theorem lock_file_fst (file_list : List CharPtr) (fn : CharPtr) :
    (lock_file file_list fn).1 = true ↔ ∀ e ∈ file_list, e.str ≠ fn.str := by
  unfold lock_file
  split
  · rename_i h
    simp only [Option.isNone_iff_eq_none, List.find?_eq_none, beq_iff_eq] at h
    simpa using h
  · rename_i h
    simp only [Option.isNone_iff_eq_none, List.find?_eq_none, beq_iff_eq] at h
    simpa using h

theorem lock_file_snd (file_list : List CharPtr) (fn : CharPtr) :
    (lock_file file_list fn).2
      = if (lock_file file_list fn).1 = true then file_list ++ [fn] else file_list := by
  unfold lock_file
  split <;> simp

theorem lock_file_nodup (file_list : List CharPtr) (fn : CharPtr)
    (h : (file_list.map CharPtr.str).Nodup) :
    ((lock_file file_list fn).2.map CharPtr.str).Nodup := by
  rw [lock_file_snd]
  split
  · rename_i hl
    rw [lock_file_fst] at hl
    rw [List.map_append, List.nodup_append]
    refine ⟨h, by simp, ?_⟩
    intro a ha hb
    simp only [List.map_cons, List.map_nil, List.mem_singleton] at hb
    obtain ⟨e, he, rfl⟩ := List.mem_map.1 ha
    exact hl e he hb
  · exact h

theorem unlock_file_nodup (file_list : List CharPtr) (fn : CharPtr)
    (h : (file_list.map CharPtr.str).Nodup) :
    ((unlock_file file_list fn).map CharPtr.str).Nodup :=
  h.sublist ((List.eraseP_sublist file_list).map CharPtr.str)

theorem run_calls_nodup (calls : List RegistryCall) : ∀ file_list : List CharPtr,
    (file_list.map CharPtr.str).Nodup → ((run_calls file_list calls).map CharPtr.str).Nodup := by
  induction calls with
  | nil => intro fl h; exact h
  | cons c cs ih =>
    intro fl h
    apply ih
    cases c with
    | lock fn => exact lock_file_nodup fl fn h
    | unlock fn => exact unlock_file_nodup fl fn h

/-- C1: `lock_file` returns TRUE exactly when no entry of the registry is string-equal
to the path; the new registry is the old one with the path appended when it returns
TRUE and the old one when it returns FALSE.  After any sequence of `lock_file` and
`unlock_file` calls from the empty registry, no two entries of the registry are
string-equal. -/
theorem lock_file_registry :
    (∀ (file_list : List CharPtr) (fn : CharPtr),
      ((lock_file file_list fn).1 = true ↔ ∀ e ∈ file_list, e.str ≠ fn.str) ∧
      (lock_file file_list fn).2
        = if (lock_file file_list fn).1 = true then file_list ++ [fn] else file_list) ∧
    (∀ calls : List RegistryCall, ((run_calls [] calls).map CharPtr.str).Nodup) :=
  ⟨fun file_list fn => ⟨lock_file_fst file_list fn, lock_file_snd file_list fn⟩,
   fun calls => run_calls_nodup calls [] List.nodup_nil⟩

/-! ## The download queue -/

/-- C8: for the `gint` priorities `a.prio = -2147483648` and `b.prio = 1` the
subtraction `_b->prio - _a->prio` leaves the range of `gint`; wrapped to 32 bits
`compare_pool (a, b)` is negative although `a.prio < b.prio`. -/
theorem compare_pool_overflow :
    is_gint (-2147483648) ∧ is_gint 1 ∧
    compare_pool ⟨"h", "/a", "a", -2147483648⟩ ⟨"h", "/b", "b", 1⟩ = -2147483647 ∧
    ¬ ((-2147483648 : Int) > 1) := by
  decide

theorem compare_pool_in_range (a b : download_info)
    (h : is_gint (b.prio - a.prio)) :
    (compare_pool a b < 0 ↔ a.prio > b.prio) ∧ (compare_pool a b = 0 ↔ a.prio = b.prio) ∧
    (compare_pool a b > 0 ↔ a.prio < b.prio) := by
  unfold is_gint at h
  unfold compare_pool wrap_gint
  omega

/-! ## `download()` -/

theorem tmp_ne (fn : String) : fn ++ ".tmp" ≠ fn := by
  intro h
  have h2 := congrArg String.length h
  rw [String.length_append] at h2
  have h3 : ".tmp".length = 4 := by decide
  omega

theorem etag_ne (fn : String) : fn ++ ".etag" ≠ fn := by
  intro h
  have h2 := congrArg String.length h
  rw [String.length_append] at h2
  have h3 : ".etag".length = 5 := by decide
  omega

theorem etag_ne_tmp (fn : String) : fn ++ ".etag" ≠ fn ++ ".tmp" := by
  intro h
  have h2 := congrArg String.length h
  rw [String.length_append, String.length_append] at h2
  have h3 : ".etag".length = 5 := by decide
  have h4 : ".tmp".length = 4 := by decide
  omega

theorem lock_file_free (file_list : List CharPtr) (fn : String) (a : Nat)
    (h : lock_free file_list fn) :
    lock_file file_list ⟨a, fn ++ ".tmp"⟩ = (true, file_list ++ [⟨a, fn ++ ".tmp"⟩]) := by
  have h1 : (lock_file file_list ⟨a, fn ++ ".tmp"⟩).1 = true := (lock_file_fst _ _).2 h
  have h2 := lock_file_snd file_list ⟨a, fn ++ ".tmp"⟩
  rw [if_pos h1] at h2
  exact Prod.ext h1 h2

theorem lock_file_held (file_list : List CharPtr) (fn : String) (a : Nat)
    (h : ¬ lock_free file_list fn) :
    lock_file file_list ⟨a, fn ++ ".tmp"⟩ = (false, file_list) := by
  have h1 : (lock_file file_list ⟨a, fn ++ ".tmp"⟩).1 = false := by
    cases hl : (lock_file file_list ⟨a, fn ++ ".tmp"⟩).1
    · rfl
    · exact absurd ((lock_file_fst _ _).1 hl) h
  have h2 := lock_file_snd file_list ⟨a, fn ++ ".tmp"⟩
  rw [h1] at h2
  exact Prod.ext h1 (by simpa using h2)

/-- The freshness stage returns -3 exactly for an existing destination that needs no
check or is younger than the threshold. -/
theorem download_check_file_none (env : Env) (fn : String)
    (options : Option DownloadMapOptions) (fs : FS) :
    download_check_file env fn options fs = none ↔
      g_file_test_exists fs fn = true ∧
        (no_check options = true ∨ env.now - g_stat_mtime fs fn < (env.tile_age : Int)) := by
  unfold download_check_file no_check
  by_cases hex : g_file_test_exists fs fn = true
  · rw [if_pos hex]
    cases options with
    | none => simp [hex]
    | some o =>
      by_cases hnc : (!o.check_file_server_time && !o.use_etag) = true
      · simp [hex, hnc]
      · by_cases hage : env.now - g_stat_mtime fs fn < (env.tile_age : Int)
        · simp [hex, hnc, hage]
        · simp only [hnc, hex, hage, if_false, true_and, or_self, iff_false]
          simp
  · rw [if_neg hex]
    simp [hex]

/-- The freshness stage changes no regular file. -/
theorem download_check_file_files (env : Env) (fn : String)
    (options : Option DownloadMapOptions) (fs fs1 : FS) (fo : DownloadFileOptions)
    (h : download_check_file env fn options fs = some (fo, fs1)) :
    fs1.files = fs.files := by
  unfold download_check_file at h
  by_cases hex : g_file_test_exists fs fn = true
  · rw [if_pos hex] at h
    cases options with
    | none => exact absurd h (by simp)
    | some o =>
      by_cases hnc : (!o.check_file_server_time && !o.use_etag) = true
      · simp [hnc] at h
      · by_cases hage : env.now - g_stat_mtime fs fn < (env.tile_age : Int)
        · simp [hnc, hage] at h
        · simp only [hnc, hage, if_false, Bool.false_eq_true, Option.some.injEq,
            Prod.mk.injEq] at h
          rw [← h.2]
  · rw [if_neg hex] at h
    simp only [Option.some.injEq, Prod.mk.injEq] at h
    rw [← h.2]
    rfl

theorem write_files (fs : FS) (fn p : String) (d : Option FileData) :
    (fs.write fn d).files p = if p = fn then d else fs.files p := rfl

theorem write_dirs (fs : FS) (fn : String) (d : Option FileData) :
    (fs.write fn d).dirs = fs.dirs := rfl

theorem failure_flag (o : DownloadMapOptions) (reply : CurlReply) :
    (if (!(reply.ret != .DOWNLOAD_NO_ERROR && reply.ret != .DOWNLOAD_NO_NEWER_FILE)) = true then
        match o.check_file with
        | none => (reply.ret != .DOWNLOAD_NO_ERROR && reply.ret != .DOWNLOAD_NO_NEWER_FILE)
        | some check =>
          if (!check ⟨reply.written, reply.written.length⟩) = true then true
          else (reply.ret != .DOWNLOAD_NO_ERROR && reply.ret != .DOWNLOAD_NO_NEWER_FILE)
      else (reply.ret != .DOWNLOAD_NO_ERROR && reply.ret != .DOWNLOAD_NO_NEWER_FILE))
      = failed o reply := by
  obtain ⟨ret, written, new_etag⟩ := reply
  unfold failed validator_rejects
  rcases hv : o.check_file with _ | check
  · cases ret <;> simp
  · cases hc : check ⟨written, written.length⟩ <;> cases ret <;> simp [hc]

/-- The backend stage for a non-NULL `options`: clean-up and -1, or commit and 0. -/
theorem download_transfer_some (env : Env) (hostname uri fn : String) (o : DownloadMapOptions)
    (ftp : Bool) (fo : DownloadFileOptions) (tmp : CharPtr) (st : State) :
    download_transfer env hostname uri fn (some o) ftp fo tmp st
      = if failed o (env.curl ⟨hostname, uri, ftp, fo⟩) = true then
          .ret (-1) ⟨g_remove (st.fs.write tmp.str
              (some ⟨(env.curl ⟨hostname, uri, ftp, fo⟩).written, env.touch_time⟩)) tmp.str,
            unlock_file st.file_list tmp, st.calls ++ [⟨hostname, uri, ftp, fo⟩]⟩
        else
          .ret 0 ⟨download_commit env fn o (env.curl ⟨hostname, uri, ftp, fo⟩) tmp
              (st.fs.write tmp.str
                (some ⟨(env.curl ⟨hostname, uri, ftp, fo⟩).written, env.touch_time⟩)),
            unlock_file st.file_list tmp, st.calls ++ [⟨hostname, uri, ftp, fo⟩]⟩ := by
  unfold download_transfer
  simp only [failure_flag]

/-- The files after the commit. -/
theorem download_commit_files (env : Env) (fn : String) (o : DownloadMapOptions)
    (reply : CurlReply) (a : Nat) (fs : FS) (d : FileData) :
    (download_commit env fn o reply ⟨a, fn ++ ".tmp"⟩
        (fs.write (fn ++ ".tmp") (some d))).dirs = fs.dirs ∧
    (download_commit env fn o reply ⟨a, fn ++ ".tmp"⟩
        (fs.write (fn ++ ".tmp") (some d))).files (fn ++ ".tmp") = none ∧
    (download_commit env fn o reply ⟨a, fn ++ ".tmp"⟩
        (fs.write (fn ++ ".tmp") (some d))).files fn =
      (if reply.ret = .DOWNLOAD_NO_NEWER_FILE then (fs.files fn).map (touched env.touch_time)
       else some d) ∧
    (download_commit env fn o reply ⟨a, fn ++ ".tmp"⟩
        (fs.write (fn ++ ".tmp") (some d))).files (fn ++ ".etag") =
      (if o.use_etag = true then
         match reply.new_etag with
         | some t => some ⟨t, env.touch_time⟩
         | none => fs.files (fn ++ ".etag")
       else fs.files (fn ++ ".etag")) ∧
    (∀ p, p ≠ fn → p ≠ fn ++ ".tmp" → p ≠ fn ++ ".etag" →
      (download_commit env fn o reply ⟨a, fn ++ ".tmp"⟩
        (fs.write (fn ++ ".tmp") (some d))).files p = fs.files p) := by
  have h1 := tmp_ne fn
  have h2 := etag_ne fn
  have h3 := etag_ne_tmp fn
  obtain ⟨ret, written, new_etag⟩ := reply
  unfold download_commit
  cases hu : o.use_etag <;> cases new_etag <;> cases hf : fs.files fn <;>
    by_cases hret : ret = .DOWNLOAD_NO_NEWER_FILE <;>
    simp [hu, hf, hret, g_remove, g_utime, g_rename, g_file_set_contents, write_files,
      write_dirs, h1, h1.symm, h2, h2.symm, h3, h3.symm, touched] <;>
    (try (intro p hp1 hp2 hp3; simp [hp1, hp2, hp3]))

theorem download_skip (env : Env) (hostname uri fn : String)
    (options : Option DownloadMapOptions) (ftp : Bool) (st : State)
    (h : download_check_file env fn options st.fs = none) :
    download env hostname uri fn options ftp st = .ret (-3) st := by
  unfold download
  rw [h]

theorem download_transfer_null (env : Env) (hostname uri fn : String) (ftp : Bool)
    (fo : DownloadFileOptions) (tmp : CharPtr) (st : State) :
    download_transfer env hostname uri fn none ftp fo tmp st = .null_deref := by
  unfold download_transfer
  simp

theorem download_null (env : Env) (hostname uri fn : String) (ftp : Bool) (st : State)
    (fo : DownloadFileOptions) (fs1 : FS)
    (h : download_check_file env fn none st.fs = some (fo, fs1)) :
    download env hostname uri fn none ftp st = .null_deref := by
  unfold download
  rw [h]
  simp only
  by_cases hl : lock_free st.file_list fn
  · rw [lock_file_free _ _ _ hl]
    simp only
    split
    · rfl
    · exact download_transfer_null _ _ _ _ _ _ _ _
  · rw [lock_file_held _ _ _ hl]

theorem download_locked (env : Env) (hostname uri fn : String) (o : DownloadMapOptions)
    (ftp : Bool) (st : State) (fo : DownloadFileOptions) (fs1 : FS)
    (h : download_check_file env fn (some o) st.fs = some (fo, fs1))
    (hl : ¬ lock_free st.file_list fn) :
    download env hostname uri fn (some o) ftp st = .ret (-4) ⟨fs1, st.file_list, st.calls⟩ := by
  unfold download
  rw [h]
  simp only
  rw [lock_file_held _ _ _ hl]

theorem download_fopen_fails (env : Env) (hostname uri fn : String) (o : DownloadMapOptions)
    (ftp : Bool) (st : State) (fo : DownloadFileOptions) (fs1 : FS)
    (h : download_check_file env fn (some o) st.fs = some (fo, fs1))
    (hl : lock_free st.file_list fn) (hf : env.fopen_ok = false) :
    download env hostname uri fn (some o) ftp st
      = .ret (-4) ⟨fs1, st.file_list ++ [⟨env.tmp_addr, fn ++ ".tmp"⟩], st.calls⟩ := by
  unfold download
  rw [h]
  simp only
  rw [lock_file_free _ _ _ hl]
  simp only [hf, if_true]

theorem download_reaches_backend (env : Env) (hostname uri fn : String)
    (o : DownloadMapOptions) (ftp : Bool) (st : State) (fo : DownloadFileOptions) (fs1 : FS)
    (h : download_check_file env fn (some o) st.fs = some (fo, fs1))
    (hl : lock_free st.file_list fn) (hf : env.fopen_ok = true) :
    download env hostname uri fn (some o) ftp st
      = download_transfer env hostname uri fn (some o) ftp fo ⟨env.tmp_addr, fn ++ ".tmp"⟩
          ⟨fs1.write (fn ++ ".tmp") (some ⟨[], env.touch_time⟩),
            st.file_list ++ [⟨env.tmp_addr, fn ++ ".tmp"⟩], st.calls⟩ := by
  unfold download
  rw [h]
  simp only
  rw [lock_file_free _ _ _ hl]
  simp only [hf, Bool.true_eq_false, if_false]

/-- What a call that reaches the backend returns and leaves behind (non-NULL
`options`). -/
theorem download_backend_outcome (env : Env) (hostname uri fn : String)
    (o : DownloadMapOptions) (ftp : Bool) (st : State) (fo : DownloadFileOptions) (fs1 : FS)
    (h : download_check_file env fn (some o) st.fs = some (fo, fs1))
    (hl : lock_free st.file_list fn) (hf : env.fopen_ok = true) :
    ∃ st', download env hostname uri fn (some o) ftp st
        = .ret (if failed o (env.curl ⟨hostname, uri, ftp, fo⟩) = true then -1 else 0) st' ∧
      st'.calls = st.calls ++ [⟨hostname, uri, ftp, fo⟩] ∧
      st'.file_list = unlock_file (st.file_list ++ [⟨env.tmp_addr, fn ++ ".tmp"⟩])
        ⟨env.tmp_addr, fn ++ ".tmp"⟩ ∧
      st'.fs.files (fn ++ ".tmp") = none ∧
      st'.fs.files fn =
        (if failed o (env.curl ⟨hostname, uri, ftp, fo⟩) = true then st.fs.files fn
         else if (env.curl ⟨hostname, uri, ftp, fo⟩).ret = .DOWNLOAD_NO_NEWER_FILE then
           (st.fs.files fn).map (touched env.touch_time)
         else some ⟨(env.curl ⟨hostname, uri, ftp, fo⟩).written, env.touch_time⟩) ∧
      st'.fs.files (fn ++ ".etag") =
        (if failed o (env.curl ⟨hostname, uri, ftp, fo⟩) = true then st.fs.files (fn ++ ".etag")
         else if o.use_etag = true then
           match (env.curl ⟨hostname, uri, ftp, fo⟩).new_etag with
           | some t => some ⟨t, env.touch_time⟩
           | none => st.fs.files (fn ++ ".etag")
         else st.fs.files (fn ++ ".etag")) ∧
      (∀ p, p ≠ fn → p ≠ fn ++ ".tmp" → p ≠ fn ++ ".etag" →
        st'.fs.files p = st.fs.files p) := by
  have h1 := tmp_ne fn
  have h2 := etag_ne fn
  have h3 := etag_ne_tmp fn
  have hfiles := download_check_file_files env fn (some o) st.fs fs1 fo h
  rw [download_reaches_backend env hostname uri fn o ftp st fo fs1 h hl hf,
    download_transfer_some]
  by_cases hfail : failed o (env.curl ⟨hostname, uri, ftp, fo⟩) = true
  · simp only [hfail, if_true]
    refine ⟨_, rfl, rfl, rfl, ?_, ?_, ?_, ?_⟩
    · simp [g_remove, write_files]
    · simp [g_remove, write_files, h1.symm, hfiles]
    · simp [g_remove, write_files, h3, hfiles]
    · intro p hp1 hp2 hp3
      simp [g_remove, write_files, hp2, hfiles]
  · simp only [hfail, if_false, Bool.false_eq_true]
    have hw : ∀ d : FileData,
        (fs1.write (fn ++ ".tmp") (some ⟨[], env.touch_time⟩)).write (fn ++ ".tmp") (some d)
          = fs1.write (fn ++ ".tmp") (some d) := by
      intro d
      simp only [FS.write]
      congr 1
      funext p
      by_cases hp : p = fn ++ ".tmp" <;> simp [hp]
    rw [hw]
    obtain ⟨_, c2, c3, c4, c5⟩ := download_commit_files env fn o
      (env.curl ⟨hostname, uri, ftp, fo⟩) env.tmp_addr fs1
      ⟨(env.curl ⟨hostname, uri, ftp, fo⟩).written, env.touch_time⟩
    refine ⟨_, rfl, rfl, rfl, c2, ?_, ?_, ?_⟩
    · rw [c3, hfiles]
    · rw [c4, hfiles]
    · intro p hp1 hp2 hp3
      rw [c5 p hp1 hp2 hp3, hfiles]

/-- The four ways a call with non-NULL `options` can go. -/
theorem download_some_cases (env : Env) (hostname uri fn : String) (o : DownloadMapOptions)
    (ftp : Bool) (st : State) :
    (download_check_file env fn (some o) st.fs = none ∧
      download env hostname uri fn (some o) ftp st = .ret (-3) st) ∨
    (∃ fo fs1, download_check_file env fn (some o) st.fs = some (fo, fs1) ∧
      ¬ lock_free st.file_list fn ∧
      download env hostname uri fn (some o) ftp st
        = .ret (-4) ⟨fs1, st.file_list, st.calls⟩) ∨
    (∃ fo fs1, download_check_file env fn (some o) st.fs = some (fo, fs1) ∧
      lock_free st.file_list fn ∧ env.fopen_ok = false ∧
      download env hostname uri fn (some o) ftp st
        = .ret (-4) ⟨fs1, st.file_list ++ [⟨env.tmp_addr, fn ++ ".tmp"⟩], st.calls⟩) ∨
    (∃ fo fs1, download_check_file env fn (some o) st.fs = some (fo, fs1) ∧
      lock_free st.file_list fn ∧ env.fopen_ok = true) := by
  rcases hchk : download_check_file env fn (some o) st.fs with _ | ⟨fo, fs1⟩
  · exact Or.inl ⟨rfl, download_skip _ _ _ _ _ _ _ hchk⟩
  · by_cases hl : lock_free st.file_list fn
    · cases hf : env.fopen_ok
      · exact Or.inr (Or.inr (Or.inl ⟨fo, fs1, rfl, hl, rfl,
          download_fopen_fails _ _ _ _ _ _ _ _ _ hchk hl hf⟩))
      · exact Or.inr (Or.inr (Or.inr ⟨fo, fs1, rfl, hl, rfl⟩))
    · exact Or.inr (Or.inl ⟨fo, fs1, rfl, hl, download_locked _ _ _ _ _ _ _ _ _ hchk hl⟩)

theorem calls_ne_append (calls : List CurlCall) (c : CurlCall) : calls ≠ calls ++ [c] := by
  intro h
  have h2 := congrArg List.length h
  simp at h2

/-- A call that returned and logged one backend call went through the freshness
stage, took the lock and opened the temporary file. -/
theorem download_called (env : Env) (hostname uri fn : String) (o : DownloadMapOptions)
    (ftp : Bool) (st st' : State) (r : Int) (c : CurlCall)
    (h : download env hostname uri fn (some o) ftp st = .ret r st')
    (hc : st'.calls = st.calls ++ [c]) :
    ∃ fo fs1, download_check_file env fn (some o) st.fs = some (fo, fs1) ∧
      lock_free st.file_list fn ∧ env.fopen_ok = true ∧ c = ⟨hostname, uri, ftp, fo⟩ := by
  rcases download_some_cases env hostname uri fn o ftp st with
    ⟨_, h1⟩ | ⟨fo, fs1, _, _, h1⟩ | ⟨fo, fs1, _, _, _, h1⟩ | ⟨fo, fs1, hchk, hl, hf⟩
  · rw [h1] at h
    injection h with _ hst
    subst hst
    exact absurd hc (calls_ne_append _ _)
  · rw [h1] at h
    injection h with _ hst
    subst hst
    exact absurd hc (calls_ne_append _ _)
  · rw [h1] at h
    injection h with _ hst
    subst hst
    exact absurd hc (calls_ne_append _ _)
  · obtain ⟨st2, h2, hcalls, _⟩ :=
      download_backend_outcome env hostname uri fn o ftp st fo fs1 hchk hl hf
    rw [h2] at h
    injection h with _ hst
    subst hst
    rw [hcalls] at hc
    have hcc := List.append_cancel_left hc
    simp only [List.cons.injEq, and_true] at hcc
    exact ⟨fo, fs1, hchk, hl, hf, hcc.symm⟩

/-- The entity tag the freshness stage hands to the backend. -/
theorem download_check_file_etag (env : Env) (fn : String) (o : DownloadMapOptions)
    (fs fs1 : FS) (fo : DownloadFileOptions)
    (h : download_check_file env fn (some o) fs = some (fo, fs1)) :
    fo.etag =
      if g_file_test_exists fs fn = true ∧ o.use_etag = true then
        match fs.files (fn ++ ".etag") with
        | some d => if d.content.length > 100 then none else some d.content
        | none => none
      else none := by
  unfold download_check_file at h
  by_cases hex : g_file_test_exists fs fn = true
  · rw [if_pos hex] at h
    by_cases hnc : (!o.check_file_server_time && !o.use_etag) = true
    · simp [hnc] at h
    · by_cases hage : env.now - g_stat_mtime fs fn < (env.tile_age : Int)
      · simp [hnc, hage] at h
      · simp only [hnc, hage, if_false, Bool.false_eq_true, Option.some.injEq,
          Prod.mk.injEq] at h
        rw [← h.1]
        cases hu : o.use_etag <;> cases hcf : o.check_file_server_time <;>
          cases hfile : fs.files (fn ++ ".etag") <;>
          simp [hex, g_file_get_contents, hfile]
        all_goals split <;> rfl
  · rw [if_neg hex] at h
    simp only [Option.some.injEq, Prod.mk.injEq] at h
    rw [← h.1]
    simp [hex]

/-- The time condition the freshness stage hands to the backend. -/
theorem download_check_file_time (env : Env) (fn : String) (o : DownloadMapOptions)
    (fs fs1 : FS) (fo : DownloadFileOptions)
    (h : download_check_file env fn (some o) fs = some (fo, fs1)) :
    fo.time_condition =
      if g_file_test_exists fs fn = true ∧ o.check_file_server_time = true then
        g_stat_mtime fs fn
      else 0 := by
  unfold download_check_file at h
  by_cases hex : g_file_test_exists fs fn = true
  · rw [if_pos hex] at h
    by_cases hnc : (!o.check_file_server_time && !o.use_etag) = true
    · simp [hnc] at h
    · by_cases hage : env.now - g_stat_mtime fs fn < (env.tile_age : Int)
      · simp [hnc, hage] at h
      · simp only [hnc, hage, if_false, Bool.false_eq_true, Option.some.injEq,
          Prod.mk.injEq] at h
        rw [← h.1]
        cases hu : o.use_etag <;> cases hcf : o.check_file_server_time <;>
          simp [hex]
        all_goals split <;> rfl
  · rw [if_neg hex] at h
    simp only [Option.some.injEq, Prod.mk.injEq] at h
    rw [← h.1]
    simp [hex]

/-! ## The claims about `download()` -/

theorem download_proceed_code (env : Env) (hostname uri fn : String)
    (options : Option DownloadMapOptions) (ftp : Bool) (st : State)
    (fo : DownloadFileOptions) (fs1 : FS)
    (h : download_check_file env fn options st.fs = some (fo, fs1)) :
    (download env hostname uri fn options ftp st).code ≠ some (-3) := by
  cases options with
  | none => rw [download_null _ _ _ _ _ _ _ _ h]; simp [Result.code]
  | some o =>
    rcases download_some_cases env hostname uri fn o ftp st with
      ⟨h0, _⟩ | ⟨_, _, _, _, h1⟩ | ⟨_, _, _, _, _, h1⟩ | ⟨fo2, fs2, hchk, hl, hf⟩
    · rw [h] at h0; exact absurd h0 (by simp)
    · rw [h1]; simp [Result.code]
    · rw [h1]; simp [Result.code]
    · obtain ⟨st2, h2, _⟩ :=
        download_backend_outcome env hostname uri fn o ftp st fo2 fs2 hchk hl hf
      rw [h2]
      split <;> simp [Result.code]

/-- C4: `download()` returns -3 exactly when the destination exists and either no
freshness check is requested (NULL options, or both flags false) or
`now - mtime < download_tile_age`; with no check requested the result is -3 whatever
the age.  Whenever -3 is returned the state is the one before the call: no backend
call, filesystem and lock registry unchanged.  For a destination that does not exist
-3 is never returned. -/
theorem download_skipped_fresh (env : Env) (hostname uri fn : String)
    (options : Option DownloadMapOptions) (ftp : Bool) (st : State) :
    ((download env hostname uri fn options ftp st).code = some (-3) ↔
      g_file_test_exists st.fs fn = true ∧
        (no_check options = true ∨
          env.now - g_stat_mtime st.fs fn < (env.tile_age : Int))) ∧
    (g_file_test_exists st.fs fn = true → no_check options = true →
      download env hostname uri fn options ftp st = .ret (-3) st) ∧
    ((download env hostname uri fn options ftp st).code = some (-3) →
      download env hostname uri fn options ftp st = .ret (-3) st) ∧
    (g_file_test_exists st.fs fn = false →
      (download env hostname uri fn options ftp st).code ≠ some (-3)) := by
  have hiff : (download env hostname uri fn options ftp st).code = some (-3) ↔
      download_check_file env fn options st.fs = none := by
    constructor
    · intro h
      rcases hchk : download_check_file env fn options st.fs with _ | ⟨fo, fs1⟩
      · rfl
      · exact absurd h (download_proceed_code _ _ _ _ _ _ _ _ _ hchk)
    · intro h
      rw [download_skip _ _ _ _ _ _ _ h]
      rfl
  refine ⟨?_, ?_, ?_, ?_⟩
  · rw [hiff, download_check_file_none]
  · intro hex hnc
    exact download_skip _ _ _ _ _ _ _ ((download_check_file_none _ _ _ _).2 ⟨hex, Or.inl hnc⟩)
  · intro h
    exact download_skip _ _ _ _ _ _ _ (hiff.1 h)
  · intro hex h
    have h2 := (download_check_file_none _ _ _ _).1 (hiff.1 h)
    rw [hex] at h2
    exact absurd h2.1 (by simp)

/-- C2: when the lock on the temporary file is taken and `g_fopen` then fails,
`download()` returns -4 (line 283) without `unlock_file`: starting from no file and
an empty registry, the registry afterwards holds the temporary path. -/
theorem download_fopen_failure_keeps_lock (tile_age tmp_addr : Nat) (now touch_time : Int)
    (curl : CurlCall → CurlReply) (hostname uri fn : String) (o : DownloadMapOptions)
    (ftp : Bool) (calls : List CurlCall) :
    download ⟨tile_age, now, touch_time, tmp_addr, false, curl⟩ hostname uri fn (some o) ftp
        ⟨no_files, [], calls⟩
      = .ret (-4) ⟨g_mkdir_with_parents no_files (g_path_get_dirname fn),
          [⟨tmp_addr, fn ++ ".tmp"⟩], calls⟩ ∧
    ([⟨tmp_addr, fn ++ ".tmp"⟩] : List CharPtr) ≠ [] := by
  refine ⟨?_, by simp⟩
  have hchk : download_check_file ⟨tile_age, now, touch_time, tmp_addr, false, curl⟩ fn
      (some o) no_files
      = some (⟨0, none, none⟩, g_mkdir_with_parents no_files (g_path_get_dirname fn)) := by
    simp [download_check_file, g_file_test_exists, no_files]
  have hl : lock_free ([] : List CharPtr) fn := by
    intro e he
    simp at he
  exact download_fopen_fails _ hostname uri fn o ftp ⟨no_files, [], calls⟩ _ _ hchk hl rfl

/-- C9: with NULL `options` the call dereferences the NULL pointer
(`options->use_etag`, lines 273, 281, 308, 315) exactly when the destination does
not exist; nothing is returned then.  With an options structure the call always
returns, one of 0, -1, -3, -4, and -4 exactly when the freshness stage lets the call
proceed and the lock is held or the temporary file cannot be opened. -/
theorem download_null_options (env : Env) (hostname uri fn : String) (ftp : Bool)
    (st : State) :
    (download env hostname uri fn none ftp st = .null_deref ↔
      g_file_test_exists st.fs fn = false) ∧
    (g_file_test_exists st.fs fn = false →
      (download env hostname uri fn none ftp st).code = none) ∧
    (∀ o : DownloadMapOptions, ∃ r st',
      download env hostname uri fn (some o) ftp st = .ret r st' ∧
      (r = 0 ∨ r = -1 ∨ r = -3 ∨ r = -4) ∧
      (r = -4 ↔ download_check_file env fn (some o) st.fs ≠ none ∧
        (¬ lock_free st.file_list fn ∨ env.fopen_ok = false))) := by
  have hnull : g_file_test_exists st.fs fn = false →
      download env hostname uri fn none ftp st = .null_deref := by
    intro hex
    have hchk : download_check_file env fn none st.fs
        = some (⟨0, none, none⟩, g_mkdir_with_parents st.fs (g_path_get_dirname fn)) := by
      simp [download_check_file, hex]
    exact download_null _ _ _ _ _ _ _ _ hchk
  refine ⟨⟨?_, hnull⟩, ?_, ?_⟩
  · intro h
    cases hex : g_file_test_exists st.fs fn
    · rfl
    · have hchk : download_check_file env fn none st.fs = none :=
        (download_check_file_none _ _ _ _).2 ⟨hex, Or.inl rfl⟩
      rw [download_skip _ _ _ _ _ _ _ hchk] at h
      exact absurd h (by simp)
  · intro hex
    rw [hnull hex]
    rfl
  · intro o
    rcases download_some_cases env hostname uri fn o ftp st with
      ⟨h0, h1⟩ | ⟨fo, fs1, hchk, hl, h1⟩ | ⟨fo, fs1, hchk, hl, hf, h1⟩ |
      ⟨fo, fs1, hchk, hl, hf⟩
    · refine ⟨_, _, h1, by simp, ?_⟩
      simp [h0]
    · refine ⟨_, _, h1, by simp, ?_⟩
      simp [hchk, hl]
    · refine ⟨_, _, h1, by simp, ?_⟩
      simp [hchk, hf]
    · obtain ⟨st2, h2, _⟩ :=
        download_backend_outcome env hostname uri fn o ftp st fo fs1 hchk hl hf
      refine ⟨_, _, h2, ?_, ?_⟩
      · split <;> simp
      · split <;> simp [hl, hf]

/-- C3: a call with an options structure always returns, and the destination is
all-or-nothing: when the backend was called, reported new content and the call
returns 0 the destination holds exactly the bytes the backend wrote; in every other
case the content of the destination is what it was before (or the file is still
absent).  When the backend reports failure the call returns -1 with the destination
unchanged, and after a return of 0 or -1 the temporary file does not exist. -/
theorem download_all_or_nothing (env : Env) (hostname uri fn : String)
    (o : DownloadMapOptions) (ftp : Bool) (st : State) :
    ∃ r st', download env hostname uri fn (some o) ftp st = .ret r st' ∧
      (∀ c, st'.calls = st.calls ++ [c] → (env.curl c).ret = .DOWNLOAD_NO_ERROR → r = 0 →
        content_of st'.fs fn = some (env.curl c).written) ∧
      ((¬ ∃ c, st'.calls = st.calls ++ [c] ∧ (env.curl c).ret = .DOWNLOAD_NO_ERROR ∧ r = 0) →
        content_of st'.fs fn = content_of st.fs fn) ∧
      (∀ c, st'.calls = st.calls ++ [c] → (env.curl c).ret = .DOWNLOAD_ERROR →
        r = -1 ∧ st'.fs.files fn = st.fs.files fn) ∧
      ((r = 0 ∨ r = -1) → st'.fs.files (fn ++ ".tmp") = none) := by
  rcases download_some_cases env hostname uri fn o ftp st with
    ⟨_, h1⟩ | ⟨fo, fs1, hchk, _, h1⟩ | ⟨fo, fs1, hchk, _, _, h1⟩ | ⟨fo, fs1, hchk, hl, hf⟩
  · refine ⟨_, _, h1, ?_, ?_, ?_, ?_⟩
    · intro c hc; exact absurd hc (calls_ne_append _ _)
    · intro _; rfl
    · intro c hc; exact absurd hc (calls_ne_append _ _)
    · intro h; rcases h with h | h <;> exact absurd h (by decide)
  · have hfiles := download_check_file_files env fn (some o) st.fs fs1 fo hchk
    refine ⟨_, _, h1, ?_, ?_, ?_, ?_⟩
    · intro c hc; exact absurd hc (calls_ne_append _ _)
    · intro _; simp only [content_of, hfiles]
    · intro c hc; exact absurd hc (calls_ne_append _ _)
    · intro h; rcases h with h | h <;> exact absurd h (by decide)
  · have hfiles := download_check_file_files env fn (some o) st.fs fs1 fo hchk
    refine ⟨_, _, h1, ?_, ?_, ?_, ?_⟩
    · intro c hc; exact absurd hc (calls_ne_append _ _)
    · intro _; simp only [content_of, hfiles]
    · intro c hc; exact absurd hc (calls_ne_append _ _)
    · intro h; rcases h with h | h <;> exact absurd h (by decide)
  · obtain ⟨st2, h2, hcalls, _, htmp, hdest, _, _⟩ :=
      download_backend_outcome env hostname uri fn o ftp st fo fs1 hchk hl hf
    have hcall : ∀ c, st2.calls = st.calls ++ [c] → c = ⟨hostname, uri, ftp, fo⟩ := by
      intro c hc
      rw [hcalls] at hc
      have hcc := List.append_cancel_left hc
      simp only [List.cons.injEq, and_true] at hcc
      exact hcc.symm
    refine ⟨_, _, h2, ?_, ?_, ?_, fun _ => htmp⟩
    · intro c hc hret hr
      rw [hcall c hc] at hret ⊢
      have hnf : ¬ failed o (env.curl ⟨hostname, uri, ftp, fo⟩) = true := by
        intro hfail
        rw [if_pos hfail] at hr
        exact absurd hr (by decide)
      rw [content_of, hdest, if_neg hnf, hret]
      simp
    · intro hno
      by_cases hfail : failed o (env.curl ⟨hostname, uri, ftp, fo⟩) = true
      · rw [content_of, hdest, if_pos hfail]
        rfl
      · by_cases hnewer : (env.curl ⟨hostname, uri, ftp, fo⟩).ret = .DOWNLOAD_NO_NEWER_FILE
        · unfold content_of
          rw [hdest, if_neg hfail, if_pos hnewer]
          cases st.fs.files fn <;> rfl
        · exfalso
          apply hno
          refine ⟨_, hcalls, ?_, if_neg hfail⟩
          cases hret : (env.curl ⟨hostname, uri, ftp, fo⟩).ret
          · rfl
          · exact absurd hret hnewer
          · exact absurd (by simp [failed, hret]) hfail
    · intro c hc hret
      rw [hcall c hc] at hret
      have hfail : failed o (env.curl ⟨hostname, uri, ftp, fo⟩) = true := by
        simp [failed, hret]
      rw [hdest, if_pos hfail, if_pos hfail]
      exact ⟨rfl, rfl⟩

/-- C5 fails as stated: the validator runs on a not-modified reply too.  The
destination `tile` is older than the threshold, the options carry
`a_check_kml_file`, the backend reports not-modified and writes nothing: the
validator rejects the empty temporary file and `download()` returns -1, not 0. -/
theorem download_not_modified_rejected :
    g_file_test_exists (one_tile (bytes "<?xml ") 100) "tile" = true ∧
    (download (env_of 60 1000 true ⟨.DOWNLOAD_NO_NEWER_FILE, [], none⟩) "host" "/tile" "tile"
      (some kml_options) false ⟨one_tile (bytes "<?xml ") 100, [], []⟩).code = some (-1) ∧
    (download (env_of 60 1000 true ⟨.DOWNLOAD_NO_NEWER_FILE, [], none⟩) "host" "/tile" "tile"
      (some kml_options) false ⟨one_tile (bytes "<?xml ") 100, [], []⟩).state.map State.calls
      = some [⟨"host", "/tile", false, ⟨100, none, none⟩⟩] := by
  decide

/-- C5, amended: in a call that reaches the backend (the freshness stage lets it
proceed with conditional parameters `fo`, the lock is free, the temporary file opens)
and in which the backend reports not-modified, the validator, if the options carry
one, is run on the temporary file.  Without a validator, or when it accepts,
`download()` returns 0, the content of the destination is what it was, its
modification time is the time of the `g_utime` call, and the temporary file is
deleted.  When the validator rejects, `download()` returns -1, the destination is
unchanged and the temporary file is deleted. -/
theorem download_not_modified (env : Env) (hostname uri fn : String)
    (o : DownloadMapOptions) (ftp : Bool) (st : State) (fo : DownloadFileOptions) (fs1 : FS)
    (hchk : download_check_file env fn (some o) st.fs = some (fo, fs1))
    (hl : lock_free st.file_list fn) (hf : env.fopen_ok = true)
    (hret : (env.curl ⟨hostname, uri, ftp, fo⟩).ret = .DOWNLOAD_NO_NEWER_FILE) :
    ∃ st', download env hostname uri fn (some o) ftp st
        = .ret (if validator_rejects o (env.curl ⟨hostname, uri, ftp, fo⟩) = true then -1
            else 0) st' ∧
      st'.calls = st.calls ++ [⟨hostname, uri, ftp, fo⟩] ∧
      content_of st'.fs fn = content_of st.fs fn ∧
      st'.fs.files fn =
        (if validator_rejects o (env.curl ⟨hostname, uri, ftp, fo⟩) = true then st.fs.files fn
         else (st.fs.files fn).map (touched env.touch_time)) ∧
      st'.fs.files (fn ++ ".tmp") = none := by
  obtain ⟨st2, h2, hcalls, _, htmp, hdest, _, _⟩ :=
    download_backend_outcome env hostname uri fn o ftp st fo fs1 hchk hl hf
  have hfailed : failed o (env.curl ⟨hostname, uri, ftp, fo⟩)
      = validator_rejects o (env.curl ⟨hostname, uri, ftp, fo⟩) := by
    simp [failed, hret]
  rw [hfailed] at h2 hdest
  rw [if_pos hret] at hdest
  refine ⟨st2, h2, hcalls, ?_, hdest, htmp⟩
  unfold content_of
  rw [hdest]
  split
  · rfl
  · cases st.fs.files fn <;> rfl

/-- C5, amended, at a concrete call: `tile` is 900 s old with a threshold of 60 s,
there is no validator and the backend reports not-modified. -/
theorem download_not_modified_witness :
    ∃ st', download (env_of 60 1000 true ⟨.DOWNLOAD_NO_NEWER_FILE, [], none⟩) "host" "/tile"
        "tile" (some time_options) false ⟨one_tile [1, 2, 3] 100, [], []⟩
        = .ret (if validator_rejects time_options ⟨.DOWNLOAD_NO_NEWER_FILE, [], none⟩ = true
            then -1 else 0) st' ∧
      st'.calls = [] ++ [⟨"host", "/tile", false, ⟨100, none, none⟩⟩] ∧
      content_of st'.fs "tile" = content_of (one_tile [1, 2, 3] 100) "tile" ∧
      st'.fs.files "tile" =
        (if validator_rejects time_options ⟨.DOWNLOAD_NO_NEWER_FILE, [], none⟩ = true
          then (one_tile [1, 2, 3] 100).files "tile"
         else ((one_tile [1, 2, 3] 100).files "tile").map (touched 1000)) ∧
      st'.fs.files ("tile" ++ ".tmp") = none :=
  download_not_modified (env_of 60 1000 true ⟨.DOWNLOAD_NO_NEWER_FILE, [], none⟩) "host"
    "/tile" "tile" time_options false ⟨one_tile [1, 2, 3] 100, [], []⟩ ⟨100, none, none⟩
    (one_tile [1, 2, 3] 100) rfl (by intro e he; simp at he) rfl rfl

/-- C6 fails as stated: the threshold is 0 and the server-time check is requested,
but the destination carries a modification time later than the current time
(`now = 100`, `mtime = 200`), so `now - mtime = -100 < 0` and `download()` returns -3
without a backend call. -/
theorem download_zero_age_future_mtime :
    (env_of 0 100 true ⟨.DOWNLOAD_NO_ERROR, [7], none⟩).tile_age = 0 ∧
    g_file_test_exists (one_tile [1, 2, 3] 200) "tile" = true ∧
    time_options.check_file_server_time = true ∧
    (download (env_of 0 100 true ⟨.DOWNLOAD_NO_ERROR, [7], none⟩) "host" "/tile" "tile"
      (some time_options) false ⟨one_tile [1, 2, 3] 200, [], []⟩).code = some (-3) ∧
    (download (env_of 0 100 true ⟨.DOWNLOAD_NO_ERROR, [7], none⟩) "host" "/tile" "tile"
      (some time_options) false ⟨one_tile [1, 2, 3] 200, [], []⟩).state.map State.calls
      = some [] := by
  decide

/-- C6, amended: for an existing destination whose modification time is not later
than the current time, with `download_tile_age` 0 and a freshness check requested,
`download()` does not return -3: it goes on to `lock_file`, returning -4 exactly when
the lock is held or the temporary file cannot be opened, and otherwise calls the
backend once, with the conditional parameters of the destination. -/
theorem download_zero_age_revalidates (env : Env) (hostname uri fn : String)
    (o : DownloadMapOptions) (ftp : Bool) (st : State)
    (hex : g_file_test_exists st.fs fn = true)
    (hage : env.tile_age = 0)
    (hpast : g_stat_mtime st.fs fn ≤ env.now)
    (hreq : o.check_file_server_time = true ∨ o.use_etag = true) :
    ∃ r st', download env hostname uri fn (some o) ftp st = .ret r st' ∧
      r ≠ -3 ∧
      (r = -4 ↔ (¬ lock_free st.file_list fn ∨ env.fopen_ok = false)) ∧
      (lock_free st.file_list fn → env.fopen_ok = true →
        ∃ fo, st'.calls = st.calls ++ [⟨hostname, uri, ftp, fo⟩] ∧
          fo.time_condition = (if o.check_file_server_time = true then g_stat_mtime st.fs fn
            else 0)) := by
  have hsome : download_check_file env fn (some o) st.fs ≠ none := by
    intro h
    have h2 := (download_check_file_none _ _ _ _).1 h
    rcases h2.2 with h3 | h3
    · simp only [no_check, Bool.and_eq_true, Bool.not_eq_true'] at h3
      rcases hreq with h4 | h4
      · rw [h4] at h3; exact absurd h3.1 (by simp)
      · rw [h4] at h3; exact absurd h3.2 (by simp)
    · rw [hage] at h3
      simp only [CharP.cast_eq_zero] at h3
      omega
  rcases download_some_cases env hostname uri fn o ftp st with
    ⟨h0, _⟩ | ⟨fo, fs1, hchk, hl, h1⟩ | ⟨fo, fs1, hchk, hl, hf, h1⟩ | ⟨fo, fs1, hchk, hl, hf⟩
  · exact absurd h0 hsome
  · refine ⟨_, _, h1, by decide, ?_, ?_⟩
    · simp [hl]
    · intro hl2; exact absurd hl2 hl
  · refine ⟨_, _, h1, by decide, ?_, ?_⟩
    · simp [hf]
    · intro _ hf2; rw [hf] at hf2; exact absurd hf2 (by simp)
  · obtain ⟨st2, h2, hcalls, _⟩ :=
      download_backend_outcome env hostname uri fn o ftp st fo fs1 hchk hl hf
    have htime := download_check_file_time env fn o st.fs fs1 fo hchk
    refine ⟨_, _, h2, ?_, ?_, ?_⟩
    · split <;> decide
    · split <;> simp [hl, hf]
    · intro _ _
      refine ⟨fo, hcalls, ?_⟩
      rw [htime]
      simp [hex]

/-- C6, amended, at a concrete call: `tile` was modified at 100, the clock reads 100
and the threshold is 0. -/
theorem download_zero_age_revalidates_witness :
    ∃ r st', download (env_of 0 100 true ⟨.DOWNLOAD_NO_ERROR, [7], none⟩) "host" "/tile" "tile"
        (some time_options) false ⟨one_tile [1, 2, 3] 100, [], []⟩ = .ret r st' ∧
      r ≠ -3 ∧
      (r = -4 ↔ (¬ lock_free ([] : List CharPtr) "tile" ∨
        (env_of 0 100 true ⟨.DOWNLOAD_NO_ERROR, [7], none⟩).fopen_ok = false)) ∧
      (lock_free ([] : List CharPtr) "tile" →
        (env_of 0 100 true ⟨.DOWNLOAD_NO_ERROR, [7], none⟩).fopen_ok = true →
        ∃ fo, st'.calls = [] ++ [⟨"host", "/tile", false, fo⟩] ∧
          fo.time_condition = (if time_options.check_file_server_time = true then
            g_stat_mtime (one_tile [1, 2, 3] 100) "tile" else 0)) :=
  download_zero_age_revalidates (env_of 0 100 true ⟨.DOWNLOAD_NO_ERROR, [7], none⟩) "host"
    "/tile" "tile" time_options false ⟨one_tile [1, 2, 3] 100, [], []⟩ (by decide) rfl
    (by decide) (Or.inl rfl)

/-- C7: when `download()` with `use_etag` returns 0 in state `st1` after a backend call
that returned the new tag `t`, the sidecar `<fn>.etag` contains exactly `t`.  A later
`download()` on `fn` with `use_etag`, on an existing destination, that reaches the
backend passes `t` as entity tag when `t` is at most 100 bytes long and no entity tag
when it is longer.  From any state in which the sidecar is missing, a call that
reaches the backend passes no entity tag. -/
theorem download_etag_round_trip (env1 env2 : Env) (hostname uri hostname2 uri2 fn : String)
    (o1 o2 : DownloadMapOptions) (ftp ftp2 : Bool) (st st1 st2 : State) (r2 : Int)
    (c1 c2 : CurlCall) (t : Bytes)
    (hu1 : o1.use_etag = true)
    (h1 : download env1 hostname uri fn (some o1) ftp st = .ret 0 st1)
    (hc1 : st1.calls = st.calls ++ [c1])
    (ht : (env1.curl c1).new_etag = some t)
    (hu2 : o2.use_etag = true)
    (hex : g_file_test_exists st1.fs fn = true)
    (h2 : download env2 hostname2 uri2 fn (some o2) ftp2 st1 = .ret r2 st2)
    (hc2 : st2.calls = st1.calls ++ [c2]) :
    content_of st1.fs (fn ++ ".etag") = some t ∧
    c2.file_options.etag = (if t.length ≤ 100 then some t else none) ∧
    (∀ (env : Env) (h u : String) (o : DownloadMapOptions) (f : Bool) (s s' : State)
        (r : Int) (c : CurlCall),
      s.fs.files (fn ++ ".etag") = none →
      download env h u fn (some o) f s = .ret r s' → s'.calls = s.calls ++ [c] →
      c.file_options.etag = none) := by
  -- the first call
  obtain ⟨fo, fs1, hchk, hl, hf, hcall⟩ :=
    download_called env1 hostname uri fn o1 ftp st st1 0 c1 h1 hc1
  obtain ⟨st1', h1', _, _, _, _, hetag, _⟩ :=
    download_backend_outcome env1 hostname uri fn o1 ftp st fo fs1 hchk hl hf
  rw [h1'] at h1
  injection h1 with hcode hst
  subst hst
  have hnf : ¬ failed o1 (env1.curl ⟨hostname, uri, ftp, fo⟩) = true := by
    intro hfail
    rw [if_pos hfail] at hcode
    exact absurd hcode (by decide)
  rw [hcall] at ht
  rw [if_neg hnf, if_pos hu1, ht] at hetag
  have hside : content_of st1'.fs (fn ++ ".etag") = some t := by
    unfold content_of
    rw [hetag]
    rfl
  -- the second call
  obtain ⟨fo2, fs2, hchk2, _, _, hcall2⟩ :=
    download_called env2 hostname2 uri2 fn o2 ftp2 st1' st2 r2 c2 h2 hc2
  have he2 := download_check_file_etag env2 fn o2 st1'.fs fs2 fo2 hchk2
  rw [if_pos ⟨hex, hu2⟩, hetag] at he2
  refine ⟨hside, ?_, ?_⟩
  · rw [hcall2]
    show fo2.etag = _
    rw [he2]
    simp only [gt_iff_lt]
    by_cases hlen : t.length ≤ 100
    · rw [if_neg (by omega), if_pos hlen]
    · rw [if_pos (by omega), if_neg hlen]
  · intro env h u o f s s' r c hmiss hd hcs
    obtain ⟨fo3, fs3, hchk3, _, _, hcall3⟩ := download_called env h u fn o f s s' r c hd hcs
    have he3 := download_check_file_etag env fn o s.fs fs3 fo3 hchk3
    rw [hmiss] at he3
    rw [hcall3]
    show fo3.etag = none
    rw [he3]
    split <;> rfl

/-- C7 at a concrete pair of calls: the first fetches `tile` and receives the tag
`xyz`; the second, 1000 s later, revalidates it. -/
theorem download_etag_round_trip_witness :
    content_of (state_after (download (env_of 60 1000 true
        ⟨.DOWNLOAD_NO_ERROR, [7, 8], some (bytes "xyz")⟩) "host" "/tile" "tile"
        (some etag_options) false ⟨one_tile [1, 2, 3] 100, [], []⟩)
        ⟨no_files, [], []⟩).fs ("tile" ++ ".etag") = some (bytes "xyz") ∧
    (⟨"host", "/tile", false, ⟨0, some (bytes "xyz"), none⟩⟩ : CurlCall).file_options.etag
      = (if (bytes "xyz").length ≤ 100 then some (bytes "xyz") else none) :=
  let env1 := env_of 60 1000 true ⟨.DOWNLOAD_NO_ERROR, [7, 8], some (bytes "xyz")⟩
  let env2 := env_of 60 2000 true ⟨.DOWNLOAD_NO_NEWER_FILE, [], none⟩
  let st : State := ⟨one_tile [1, 2, 3] 100, [], []⟩
  let st1 := state_after (download env1 "host" "/tile" "tile" (some etag_options) false st)
    ⟨no_files, [], []⟩
  let st2 := state_after (download env2 "host" "/tile" "tile" (some etag_options) false st1)
    ⟨no_files, [], []⟩
  have h := download_etag_round_trip env1 env2 "host" "/tile" "host" "/tile" "tile"
    etag_options etag_options false false st st1 st2 0
    ⟨"host", "/tile", false, ⟨0, none, none⟩⟩
    ⟨"host", "/tile", false, ⟨0, some (bytes "xyz"), none⟩⟩ (bytes "xyz")
    rfl rfl (by decide) rfl rfl (by decide) rfl (by decide)
  ⟨h.1, h.2.1⟩

end Viking
